import Mathlib

/-!
# Verification of the credential-service status-list core

Shallow embedding of the credential-issuance service's helpers and of its
status-list engine.

* `validateSpecCompliantPayload`, `isValidService`, `isValidVerificationMethod`
  and `verifyHookSignature` are embedded from `src/helpers/helpers.ts`.
* The `Veramo` wiring functions (`revokeCredentials`, `suspendCredentials`,
  `unsuspendCredentials`, `updateStatusList2021`, `createStatusList2021`) are
  embedded from the agent class: each is modelled as the argument record it
  hands to the underlying status-list provider.
* The status-list engine itself (bit mutation, codec, publish coordination)
  lives in the external `@cheqd/did-provider-cheqd` collaborator, which is not
  part of the repository sources; those operations are modelled from the spec
  and are marked `Modelled from the spec:` in their doc comments.
-/

set_option autoImplicit false
set_option linter.unnecessarySeqFocus false

namespace CredentialService

/-! ## DID document validation (src/helpers/helpers.ts lines 7-52) -/

/-- One entry of a DID document `verificationMethod` array.  Key-material
fields are optional in the upstream `did-resolver` type; `none` models a
missing (`undefined`/`null`) field. -/
structure VerificationMethod where
  type : String
  publicKeyMultibase : Option String
  publicKeyJwk : Option String
  publicKeyBase58 : Option String
deriving DecidableEq, Repr

/-- One entry of a DID document `service` array.  Each field is optional; a
present-but-empty string is falsy in the source's truthiness checks. -/
structure Service where
  id : Option String
  type : Option String
  serviceEndpoint : Option String
deriving DecidableEq, Repr

/-- The slice of the upstream `DIDDocument` type the validator reads.
`verificationMethod` and `service` are optional arrays. -/
structure DIDDocument where
  id : String
  verificationMethod : Option (List VerificationMethod)
  service : Option (List Service)
deriving DecidableEq, Repr

/-- Result type of `validateSpecCompliantPayload` (`SpecValidationResult`). -/
structure SpecValidationResult where
  valid : Bool
  error : Option String
deriving DecidableEq, Repr

/-- JavaScript truthiness of an optional string: `null`/`undefined` and the
empty string are falsy. -/
def truthyStr : Option String → Bool
  | none => false
  | some s => s ≠ ""

/-- `isValidService` from the source: when a `service` array is present every
entry must have truthy `serviceEndpoint`, `id` and `type`; an absent array is
valid. -/
def isValidService (didDocument : DIDDocument) : Bool :=
  match didDocument.service with
  | none => true
  | some svcs =>
    svcs.all fun s => truthyStr s.serviceEndpoint && truthyStr s.id && truthyStr s.type

/-- `isValidVerificationMethod` from the source: every entry's type must be
one of the three supported suites and carry the matching key field
(`!= null`); any other type fails. -/
def isValidVerificationMethod (didDocument : DIDDocument) : Bool :=
  match didDocument.verificationMethod with
  | none => false
  | some vms =>
    vms.all fun vm =>
      if vm.type = "Ed25519VerificationKey2020" then vm.publicKeyMultibase.isSome
      else if vm.type = "JsonWebKey2020" then vm.publicKeyJwk.isSome
      else if vm.type = "Ed25519VerificationKey2018" then vm.publicKeyBase58.isSome
      else false

/-- `validateSpecCompliantPayload` from the source.  The first guard is the
source's `!didDocument.id && !didDocument.id.startsWith('did:cheqd:')`:
because of the `&&`, a non-empty `id` always passes it regardless of prefix. -/
def validateSpecCompliantPayload (didDocument : DIDDocument) : SpecValidationResult :=
  if didDocument.id = "" ∧ ¬ didDocument.id.startsWith "did:cheqd:" then
    ⟨false, some "id is required"⟩
  else
    match didDocument.verificationMethod with
    | none => ⟨false, some "verificationMethod is required"⟩
    | some vms =>
      if vms.isEmpty then ⟨false, some "verificationMethod must be not be empty"⟩
      else if ¬ isValidVerificationMethod didDocument then
        ⟨false, some "verificationMethod publicKey is Invalid"⟩
      else if ¬ isValidService didDocument then ⟨false, some "Service is Invalid"⟩
      else ⟨true, none⟩

/-! ## Webhook signature verification (src/helpers/helpers.ts lines 65-70) -/

/-- Lowercase hexadecimal digit characters, as produced by node's
`hmac.digest('hex')`. -/
def hexDigitChar (n : Nat) : Char :=
  "0123456789abcdef".toList.getD n ' '

/-- Lowercase hexadecimal rendering of a byte sequence, two digits per byte,
most significant nibble first — the format of `digest('hex')`. -/
def bytesToHexLower (bs : List Nat) : String :=
  ⟨bs.foldr (fun b acc => hexDigitChar (b / 16 % 16) :: hexDigitChar (b % 16) :: acc) []⟩

/-- `verifyHookSignature` from the source.  The HMAC-SHA256 computation is
performed by the external `node:crypto` collaborator; it is passed in as the
function `hmacSha256` returning the raw digest bytes.  The source hex-encodes
the digest and compares it with `===` against the expected signature. -/
def verifyHookSignature (hmacSha256 : String → String → List Nat)
    (signingKey rawBody expectedSignature : String) : Bool :=
  bytesToHexLower (hmacSha256 signingKey rawBody) == expectedSignature

/-! ## Status-list data model

Modelled from the spec: the StatusList entity of §3 (the engine lives in the
external `@cheqd/did-provider-cheqd` collaborator, outside the repository
sources). -/

/-- Status purpose enum: `revocation` or `suspension`. -/
inductive StatusPurpose where
  | revocation
  | suspension
deriving DecidableEq, Repr

/-- Wire encodings supported for the compressed bitstring. -/
inductive Encoding where
  | base64url
  | base64
  | hex
deriving DecidableEq, Repr

/-- Batch mutation actions of an UpdateRequest. -/
inductive StatusAction where
  | revoke
  | suspend
  | reinstate
deriving DecidableEq, Repr

/-- Error taxonomy of spec §7. -/
inductive StatusError where
  | notFound
  | indexOutOfRange
  | invalidAction
  | exhausted
  | versionMismatch
  | publishConflict
  | decodeError
deriving DecidableEq, Repr

/-- Modelled from the spec: the StatusList core entity (§3).  `bits` is the
ordered boolean sequence; its length is the list's fixed `length`; `version`
is the monotonically-assigned revision marker (0 = initial). -/
structure StatusList where
  purpose : StatusPurpose
  bits : List Bool
  encoding : Encoding
  encrypted : Bool
  version : Nat
deriving DecidableEq, Repr

/-- Modelled from the spec: `create(length, purpose, encoding, encrypted)`
yields a list of all-zero bits with the initial version marker (§4.2). -/
def createList (length : Nat) (purpose : StatusPurpose) (encoding : Encoding)
    (encrypted : Bool) : StatusList :=
  ⟨purpose, List.replicate length false, encoding, encrypted, 0⟩

/-- Modelled from the spec: the ledger resource store keyed by
`(issuerDid, statusListName)`, holding the single current version of each
list (§3 Identity, §5 shared resource). -/
def Ledger := List ((String × String) × StatusList)

/-- Modelled from the spec: fetch the current StatusList stored under
`(issuerDid, statusListName)` (§6 `fetchResource`). -/
def fetchList (ledger : Ledger) (issuerDid statusListName : String) : Option StatusList :=
  (List.find? (fun kv => kv.1 = (issuerDid, statusListName)) ledger).map (·.2)

/-- Modelled from the spec: store a new revision under an existing
`(issuerDid, statusListName)` key (§6 `publishResource`). -/
def storeList (ledger : Ledger) (issuerDid statusListName : String)
    (l : StatusList) : Ledger :=
  ledger.map fun kv => if kv.1 = (issuerDid, statusListName) then (kv.1, l) else kv

/-- Modelled from the spec: range validity `0 <= index < length` for an
UpdateRequest index (§3 invariants; indices are integers). -/
def indexOk (length : Nat) (i : Int) : Bool :=
  decide (0 ≤ i) && decide (i < (length : Int))

/-- Modelled from the spec: the bit value an action writes — revoke→1,
suspend→1, reinstate→0 (§4.4 step 2). -/
def actionValue : StatusAction → Bool
  | .revoke => true
  | .suspend => true
  | .reinstate => false

/-- Modelled from the spec: `setBit` (§4.2) — a new list with `bits[index] =
value`, or `IndexOutOfRange` when the index is outside `[0, length)`. -/
def setBit (l : StatusList) (index : Nat) (value : Bool) : Except StatusError StatusList :=
  if index < l.bits.length then .ok { l with bits := l.bits.set index value }
  else .error .indexOutOfRange

/-- Modelled from the spec: the Mutate phase of the Update Coordinator (§4.4
step 2) — validate every index of the batch, reject `reinstate` on a
revocation-purpose list with `InvalidAction`, and only then flip bits, so an
invalid request aborts before any bit changes (validate-then-apply). -/
def mutateList (l : StatusList) (indices : List Int) (action : StatusAction) :
    Except StatusError StatusList :=
  if ¬ (indices.all (indexOk l.bits.length)) then .error .indexOutOfRange
  else if action = .reinstate ∧ l.purpose = .revocation then .error .invalidAction
  else .ok { l with
    bits := indices.foldl (fun bs i => bs.set i.toNat (actionValue action)) l.bits }

/-- One mutation unit (§3 UpdateRequest). -/
structure UpdateRequest where
  issuerDid : String
  statusListName : String
  indices : List Int
  statusListVersion : Option Nat
  statusAction : StatusAction
deriving DecidableEq, Repr

/-- Modelled from the spec: the Mutate → Decide-publish → Publish tail of
`applyUpdate` (§4.4 steps 2-4), run against the list fetched in step 1.
`ledgerAtPublish` is the ledger state observed at publish time: when someone
else published a newer revision between fetch and publish its version differs
from the fetched one and the publish fails with `PublishConflict`, leaving the
ledger untouched.  With `publish = false` the updated list is returned to the
caller and the ledger is never written. -/
def applyUpdateFetched (cur : StatusList) (ledgerAtPublish : Ledger)
    (req : UpdateRequest) (publish : Bool) : Except StatusError StatusList × Ledger :=
  match mutateList cur req.indices req.statusAction with
  | .error e => (.error e, ledgerAtPublish)
  | .ok newList =>
    if publish = false then (.ok newList, ledgerAtPublish)
    else
      match fetchList ledgerAtPublish req.issuerDid req.statusListName with
      | none => (.error .notFound, ledgerAtPublish)
      | some latest =>
        if latest.version ≠ cur.version then (.error .publishConflict, ledgerAtPublish)
        else
          let published := { newList with version := cur.version + 1 }
          (.ok published,
            storeList ledgerAtPublish req.issuerDid req.statusListName published)

/-- Modelled from the spec: `applyUpdate` (§4.4) — Fetch from
`ledgerAtFetch` (honouring a pinned `statusListVersion`), then Mutate /
Decide-publish / Publish against `ledgerAtPublish`.  A sequential caller
passes the same ledger for both; a distinct `ledgerAtPublish` models a
concurrent publish landing between the two phases. -/
def applyUpdate (ledgerAtFetch ledgerAtPublish : Ledger) (req : UpdateRequest)
    (publish : Bool) : Except StatusError StatusList × Ledger :=
  match fetchList ledgerAtFetch req.issuerDid req.statusListName with
  | none => (.error .notFound, ledgerAtPublish)
  | some cur =>
    match req.statusListVersion with
    | some v =>
      if v ≠ cur.version then (.error .versionMismatch, ledgerAtPublish)
      else applyUpdateFetched cur ledgerAtPublish req publish
    | none => applyUpdateFetched cur ledgerAtPublish req publish

/-- Result of a point status query (§4.5). -/
structure StatusCheckResult where
  purpose : StatusPurpose
  value : Bool
deriving DecidableEq, Repr

/-- Modelled from the spec: `checkStatus(list, index)` (§4.5) — fetch the
list, fail with `NotFound` when absent or `IndexOutOfRange` when the index is
invalid, otherwise report the bit value and the list's purpose. -/
def checkStatus (ledger : Ledger) (issuerDid statusListName : String) (index : Nat) :
    Except StatusError StatusCheckResult :=
  match fetchList ledger issuerDid statusListName with
  | none => .error .notFound
  | some l =>
    if index < l.bits.length then .ok ⟨l.purpose, l.bits.getD index false⟩
    else .error .indexOutOfRange

/-! ## Veramo agent wiring (src/services/identity/agent.ts, concatenated into
src/helpers/helpers.ts lines 226-729)

Each wiring method is embedded as the argument record it hands to the
status-list provider; the provider's execution of that record is the
spec-modelled engine above. -/

/-- Credentials argument of the revoke/suspend/unsuspend wrappers: either one
credential or an array (`VerifiableCredential | VerifiableCredential[]`). -/
inductive CredentialsInput where
  | single (credential : String)
  | array (credentials : List String)
deriving DecidableEq, Repr

/-- Argument record a credential-level revoke/suspend/unsuspend wrapper hands
to the provider.  `bulk` records whether the array-taking provider method was
called; `returnUpdatedStatusList = none` means the field was omitted. -/
structure CredentialsCallArgs where
  bulk : Bool
  fetchList : Bool
  publish : Bool
  returnUpdatedStatusList : Option Bool
deriving DecidableEq, Repr

namespace Veramo

/-- `Veramo.revokeCredentials` from the source: the array branch calls
`cheqdRevokeCredentials` with the literal `publish: true`, ignoring the
`publish` parameter; the single branch passes `publish` through. -/
def revokeCredentials : CredentialsInput → Bool → CredentialsCallArgs
  | .array _, _ => ⟨true, true, true, none⟩
  | .single _, publish => ⟨false, true, publish, none⟩

/-- `Veramo.suspendCredentials` from the source: both branches pass the
`publish` parameter through. -/
def suspendCredentials : CredentialsInput → Bool → CredentialsCallArgs
  | .array _, publish => ⟨true, true, publish, none⟩
  | .single _, publish => ⟨false, true, publish, none⟩

/-- `Veramo.unsuspendCredentials` from the source: both branches pass the
`publish` parameter through. -/
def unsuspendCredentials : CredentialsInput → Bool → CredentialsCallArgs
  | .array _, publish => ⟨true, true, publish, none⟩
  | .single _, publish => ⟨false, true, publish, none⟩

end Veramo

/-- The `UpdateStatusListOptions` request body of `updateStatusList2021`. -/
structure UpdateStatusListOptions where
  statusAction : StatusAction
  indices : List Int
  statusListName : String
  statusListVersion : Option Nat
deriving DecidableEq, Repr

/-- Argument record `updateStatusList2021` hands to the provider
(`cheqdRevokeCredentials` / `cheqdSuspendCredentials` /
`cheqdUnsuspendCredentials` according to the action). -/
structure StatusUpdateCallArgs where
  issuerDid : String
  statusListIndices : List Int
  statusListName : String
  statusListVersion : Option Nat
  action : StatusAction
  fetchList : Bool
  publish : Bool
  returnUpdatedStatusList : Option Bool
deriving DecidableEq, Repr

namespace Veramo

/-- `Veramo.updateStatusList2021` from the source: switches on
`statusOptions.statusAction` and forwards the indices, name and pinned
version with `fetchList: true`, the caller's `publish`, and
`returnUpdatedStatusList: !publish`. -/
def updateStatusList2021 (did : String) (statusOptions : UpdateStatusListOptions)
    (publish : Bool) : StatusUpdateCallArgs :=
  match statusOptions.statusAction with
  | .revoke =>
    ⟨did, statusOptions.indices, statusOptions.statusListName,
      statusOptions.statusListVersion, .revoke, true, publish, some (!publish)⟩
  | .suspend =>
    ⟨did, statusOptions.indices, statusOptions.statusListName,
      statusOptions.statusListVersion, .suspend, true, publish, some (!publish)⟩
  | .reinstate =>
    ⟨did, statusOptions.indices, statusOptions.statusListName,
      statusOptions.statusListVersion, .reinstate, true, publish, some (!publish)⟩

end Veramo

/-- Modelled from the spec: the provider executes a status-update call record
as the `applyUpdate` coordinator run sequentially (both phases observe the
same ledger). -/
def runStatusUpdateCall (ledger : Ledger) (args : StatusUpdateCallArgs) :
    Except StatusError StatusList × Ledger :=
  applyUpdate ledger ledger
    ⟨args.issuerDid, args.statusListName, args.statusListIndices,
      args.statusListVersion, args.action⟩ args.publish

/-- The `CreateStatusListOptions` request body of `createStatusList2021`;
every field the source defaults is optional. -/
structure CreateStatusListOptions where
  statusPurpose : Option StatusPurpose
  encoding : Option Encoding
  length : Option Nat
  encrypted : Option Bool
deriving DecidableEq, Repr

/-- The slice of `ResourcePayload` read by `createStatusList2021`. -/
structure ResourcePayload where
  name : Option String
  version : Option String
deriving DecidableEq, Repr

/-- Argument record `createStatusList2021` hands to
`cheqdCreateStatusList2021`. -/
structure CreateStatusListCallArgs where
  issuerDid : String
  statusListName : String
  statusPurpose : StatusPurpose
  statusListEncoding : Encoding
  statusListLength : Option Nat
  encrypted : Bool
  resourceVersion : Option String
deriving DecidableEq, Repr

namespace Veramo

/-- `Veramo.createStatusList2021` from the source: throws when
`resourceOptions.name` is falsy, defaults `statusPurpose` to `revocation`,
`statusListEncoding` to `base64url` and `encrypted` to `false` via `||`, and
forwards `statusListLength` untouched (the provider applies the documented
140000-bit default). -/
def createStatusList2021 (did : String) (resourceOptions : ResourcePayload)
    (statusOptions : CreateStatusListOptions) : Except String CreateStatusListCallArgs :=
  if truthyStr resourceOptions.name = false then .error "StatusList name is required"
  else
    .ok ⟨did, resourceOptions.name.getD "", statusOptions.statusPurpose.getD .revocation,
      statusOptions.encoding.getD .base64url, statusOptions.length,
      statusOptions.encrypted.getD false, resourceOptions.version⟩

end Veramo

/-- Modelled from the spec: the default status-list length applied by the
provider when the creation request carries no explicit `length` — "The
default and minimum length is 140000 which is 16kb" (§3; the repository's own
swagger documentation). -/
def defaultStatusListLength : Nat := 140000

/-- Modelled from the spec: the provider executes a creation call record by
building the all-zero list of the requested (or default) length. -/
def runCreateStatusListCall (args : CreateStatusListCallArgs) : StatusList :=
  createList (args.statusListLength.getD defaultStatusListLength)
    args.statusPurpose args.statusListEncoding args.encrypted

/-! ## BitSet codec

Modelled from the spec (§4.1): pack the boolean sequence into a byte buffer
(1 bit per position, index 0 = least significant bit of the first byte),
compress with a deterministic lossless compressor (an external collaborator,
passed in as a function), then text-encode per the chosen encoding. -/

/-- Value of a byte whose bit `i` (LSB-first) is the `i`-th listed bit. -/
def bitsToByte (bs : List Bool) : Nat :=
  bs.foldr (fun b acc => 2 * acc + (if b then 1 else 0)) 0

/-- The 8 bits of a byte, LSB first. -/
def byteToBits (n : Nat) : List Bool :=
  (List.range 8).map fun i => n.testBit i

/-- Modelled from the spec: pack bits into bytes, 8 per byte, index 0 the
least significant bit of the first byte; a ragged final chunk is padded with
zero bits. -/
def packBits : List Bool → List Nat
  | [] => []
  | [b0] => [bitsToByte [b0]]
  | [b0, b1] => [bitsToByte [b0, b1]]
  | [b0, b1, b2] => [bitsToByte [b0, b1, b2]]
  | [b0, b1, b2, b3] => [bitsToByte [b0, b1, b2, b3]]
  | [b0, b1, b2, b3, b4] => [bitsToByte [b0, b1, b2, b3, b4]]
  | [b0, b1, b2, b3, b4, b5] => [bitsToByte [b0, b1, b2, b3, b4, b5]]
  | [b0, b1, b2, b3, b4, b5, b6] => [bitsToByte [b0, b1, b2, b3, b4, b5, b6]]
  | b0 :: b1 :: b2 :: b3 :: b4 :: b5 :: b6 :: b7 :: rest =>
    bitsToByte [b0, b1, b2, b3, b4, b5, b6, b7] :: packBits rest

/-- Modelled from the spec: unpack a byte buffer back into its first `len`
bits, LSB-first within each byte. -/
def unpackBits (bytes : List Nat) (len : Nat) : List Bool :=
  ((bytes.map byteToBits).flatten).take len

/-- Character of a six-bit group under a base-64 alphabet. -/
def b64Char (alpha : List Char) (n : Nat) : Char :=
  alpha.getD n ' '

/-- Six-bit value of a character under a base-64 alphabet. -/
def b64Index (alpha : List Char) (c : Char) : Option Nat :=
  List.findIdx? (fun a => a = c) alpha

/-- Base-64 encoding over an arbitrary 64-character alphabet: three bytes per
four characters, `'='`-padded final group. -/
def b64Encode (alpha : List Char) : List Nat → List Char
  | [] => []
  | [x] => [b64Char alpha (x / 4), b64Char alpha (x % 4 * 16), '=', '=']
  | [x, y] =>
    [b64Char alpha (x / 4), b64Char alpha (x % 4 * 16 + y / 16),
      b64Char alpha (y % 16 * 4), '=']
  | x :: y :: z :: rest =>
    b64Char alpha (x / 4) :: b64Char alpha (x % 4 * 16 + y / 16) ::
      b64Char alpha (y % 16 * 4 + z / 64) :: b64Char alpha (z % 64) ::
      b64Encode alpha rest

/-- Base-64 decoding over an arbitrary alphabet, inverse of `b64Encode`. -/
def b64Decode (alpha : List Char) : List Char → Option (List Nat)
  | [] => some []
  | c1 :: c2 :: c3 :: c4 :: rest =>
    match b64Index alpha c1, b64Index alpha c2 with
    | some s1, some s2 =>
      if c3 = '=' then
        if c4 = '=' ∧ rest = [] then some [s1 * 4 + s2 / 16] else none
      else
        match b64Index alpha c3 with
        | some s3 =>
          if c4 = '=' then
            if rest = [] then some [s1 * 4 + s2 / 16, s2 % 16 * 16 + s3 / 4] else none
          else
            match b64Index alpha c4 with
            | some s4 =>
              match b64Decode alpha rest with
              | some tail =>
                some ((s1 * 4 + s2 / 16) :: (s2 % 16 * 16 + s3 / 4) ::
                  (s3 % 4 * 64 + s4) :: tail)
              | none => none
            | none => none
        | none => none
    | _, _ => none
  | _ => none

/-- The standard base64 alphabet. -/
def base64Alphabet : List Char :=
  "ABCDEFGHIJKLMNOPQRSTUVWXYZabcdefghijklmnopqrstuvwxyz0123456789+/".toList

/-- The base64url alphabet (`-` and `_` in place of `+` and `/`). -/
def base64UrlAlphabet : List Char :=
  "ABCDEFGHIJKLMNOPQRSTUVWXYZabcdefghijklmnopqrstuvwxyz0123456789-_".toList

/-- Hexadecimal encoding of a byte buffer, two lowercase digits per byte. -/
def hexEncode : List Nat → List Char
  | [] => []
  | b :: rest => hexDigitChar (b / 16) :: hexDigitChar (b % 16) :: hexEncode rest

/-- Value of a lowercase hexadecimal digit character. -/
def hexIndex (c : Char) : Option Nat :=
  List.findIdx? (fun a => a = c) "0123456789abcdef".toList

/-- Hexadecimal decoding, inverse of `hexEncode`. -/
def hexDecode : List Char → Option (List Nat)
  | [] => some []
  | c1 :: c2 :: rest =>
    match hexIndex c1, hexIndex c2, hexDecode rest with
    | some hi, some lo, some tail => some ((hi * 16 + lo) :: tail)
    | _, _, _ => none
  | _ => none

/-- Text-encode a byte buffer per the chosen wire encoding. -/
def textEncode : Encoding → List Nat → List Char
  | .base64url => b64Encode base64UrlAlphabet
  | .base64 => b64Encode base64Alphabet
  | .hex => hexEncode

/-- Text-decode a string back into a byte buffer per the chosen encoding. -/
def textDecode : Encoding → List Char → Option (List Nat)
  | .base64url => b64Decode base64UrlAlphabet
  | .base64 => b64Decode base64Alphabet
  | .hex => hexDecode

/-- Modelled from the spec: `encode(bits, encoding)` (§4.1) — pack, compress
with the collaborator-supplied deterministic lossless compressor `comp`, then
text-encode. -/
def encodeBits (comp : List Nat → List Nat) (enc : Encoding) (bits : List Bool) : String :=
  ⟨textEncode enc (comp (packBits bits))⟩

/-- Modelled from the spec: `decode(string, encoding, length)` (§4.1) — the
inverse of `encodeBits`; fails with `DecodeError` when text-decoding or
decompression fails or when the decompressed byte length does not match
`length` exactly. -/
def decodeBits (decomp : List Nat → Option (List Nat)) (enc : Encoding) (s : String)
    (length : Nat) : Except StatusError (List Bool) :=
  match textDecode enc s.data with
  | none => .error .decodeError
  | some compressed =>
    match decomp compressed with
    | none => .error .decodeError
    | some bytes =>
      if bytes.length = (length + 7) / 8 then .ok (unpackBits bytes length)
      else .error .decodeError

/-! ## Codec lemmas -/

theorem bitsToByte_lt (c : List Bool) : bitsToByte c < 2 ^ c.length := by
  induction c with
  | nil => simp [bitsToByte]
  | cons x c ih =>
    have hx : bitsToByte (x :: c) = 2 * bitsToByte c + (if x then 1 else 0) := rfl
    have hp : (2 : Nat) ^ (x :: c).length = 2 * 2 ^ c.length := by
      simp [List.length_cons, pow_succ]
      ring
    rw [hx, hp]
    cases x <;> simp <;> omega

theorem testBit_bitsToByte (c : List Bool) : ∀ i : Nat, (bitsToByte c).testBit i = c.getD i false := by
  induction c with
  | nil =>
    intro i
    simp [bitsToByte]
  | cons x c ih =>
    intro i
    have hx : bitsToByte (x :: c) = 2 * bitsToByte c + (if x then 1 else 0) := rfl
    cases i with
    | zero =>
      rw [hx, Nat.testBit_to_div_mod]
      cases x <;> simp <;> omega
    | succ i =>
      have hdiv : bitsToByte (x :: c) / 2 = bitsToByte c := by
        rw [hx]; cases x <;> simp <;> omega
      rw [← Nat.testBit_div_two, hdiv, ih i]
      simp

theorem range_map_getD (c : List Bool) : ∀ n, c.length ≤ n →
    (List.range n).map (fun i => c.getD i false) = c ++ List.replicate (n - c.length) false := by
  induction c with
  | nil =>
    intro n hn
    simp [List.getD]
  | cons x c ih =>
    intro n hn
    match n, hn with
    | n + 1, hn =>
      rw [List.range_succ_eq_map]
      simp only [List.map_cons, List.map_map]
      have hs : ((fun i => (x :: c).getD i false) ∘ Nat.succ) = fun i => c.getD i false := by
        funext i
        simp [Function.comp, List.getD_cons_succ]
      rw [hs, List.getD_cons_zero, ih n (by simpa using hn)]
      simp [Nat.succ_sub_succ]

theorem byteToBits_bitsToByte (c : List Bool) (h : c.length ≤ 8) :
    byteToBits (bitsToByte c) = c ++ List.replicate (8 - c.length) false := by
  unfold byteToBits
  rw [show (fun i => (bitsToByte c).testBit i) = fun i => c.getD i false from
    funext (testBit_bitsToByte c)]
  exact range_map_getD c 8 h

theorem length_packBits (bs : List Bool) : (packBits bs).length = (bs.length + 7) / 8 := by
  induction bs using packBits.induct <;> simp [packBits, *] <;> omega

theorem bitsToByte_lt_256 (c : List Bool) (h : c.length ≤ 8) : bitsToByte c < 256 := by
  have h1 := bitsToByte_lt c
  have h2 : (2 : Nat) ^ c.length ≤ 2 ^ 8 := Nat.pow_le_pow_right (by omega) h
  norm_num at h2
  omega

theorem packBits_lt (bs : List Bool) : ∀ x ∈ packBits bs, x < 256 := by
  induction bs using packBits.induct <;> simp [packBits, *] <;>
    first
    | exact bitsToByte_lt_256 _ (by simp)
    | exact ⟨bitsToByte_lt_256 _ (by simp), by assumption⟩

theorem unpackBits_packBits (bs : List Bool) : unpackBits (packBits bs) bs.length = bs := by
  induction bs using packBits.induct <;>
    simp only [unpackBits] at * <;>
    simp [packBits, byteToBits_bitsToByte, *]

theorem b64Char_mem (alpha : List Char) (hlen : alpha.length = 64) (i : Nat) (hi : i < 64) :
    b64Char alpha i ∈ alpha := by
  unfold b64Char
  have h' : i < alpha.length := by omega
  rw [List.getD_eq_getElem?_getD, List.getElem?_eq_getElem h']
  simp

theorem b64_roundtrip_aux (alpha : List Char) (hlen : alpha.length = 64) (hpad : '=' ∉ alpha)
    (hidx : ∀ i, i < 64 → b64Index alpha (b64Char alpha i) = some i) :
    ∀ (n : Nat) (bs : List Nat), bs.length ≤ n → (∀ b ∈ bs, b < 256) →
      b64Decode alpha (b64Encode alpha bs) = some bs := by
  have hne : ∀ i, i < 64 → ¬ (b64Char alpha i = '=') := fun i hi h =>
    hpad (h ▸ b64Char_mem alpha hlen i hi)
  intro n
  induction n with
  | zero =>
    intro bs hbs _
    have hnil : bs = [] := List.length_eq_zero.mp (by omega)
    subst hnil
    simp [b64Encode, b64Decode]
  | succ n ih =>
    intro bs hbs hval
    match bs with
    | [] => simp [b64Encode, b64Decode]
    | [x] =>
      have hx : x < 256 := hval x (by simp)
      have h1 := hidx (x / 4) (by omega)
      have h2 := hidx (x % 4 * 16) (by omega)
      simp only [b64Encode, b64Decode, h1, h2]
      simp
      omega
    | [x, y] =>
      have hx : x < 256 := hval x (by simp)
      have hy : y < 256 := hval y (by simp)
      have h1 := hidx (x / 4) (by omega)
      have h2 := hidx (x % 4 * 16 + y / 16) (by omega)
      have h3 := hidx (y % 16 * 4) (by omega)
      simp only [b64Encode, b64Decode, h1, h2, h3]
      rw [if_neg (hne _ (by omega))]
      simp
      omega
    | x :: y :: z :: rest =>
      have hx : x < 256 := hval x (by simp)
      have hy : y < 256 := hval y (by simp)
      have hz : z < 256 := hval z (by simp)
      have h1 := hidx (x / 4) (by omega)
      have h2 := hidx (x % 4 * 16 + y / 16) (by omega)
      have h3 := hidx (y % 16 * 4 + z / 64) (by omega)
      have h4 := hidx (z % 64) (by omega)
      have hrest : b64Decode alpha (b64Encode alpha rest) = some rest := by
        refine ih rest ?_ fun b hb => hval b (by simp [hb])
        simp at hbs
        omega
      simp only [b64Encode, b64Decode, h1, h2, h3, h4, hrest]
      rw [if_neg (hne _ (by omega)), if_neg (hne _ (by omega))]
      simp
      omega

theorem base64Alphabet_len : base64Alphabet.length = 64 := by decide

theorem base64Alphabet_pad : '=' ∉ base64Alphabet := by decide

theorem b64Index_base64Alphabet :
    ∀ i, i < 64 → b64Index base64Alphabet (b64Char base64Alphabet i) = some i := by decide

theorem base64UrlAlphabet_len : base64UrlAlphabet.length = 64 := by decide

theorem base64UrlAlphabet_pad : '=' ∉ base64UrlAlphabet := by decide

theorem b64Index_base64UrlAlphabet :
    ∀ i, i < 64 → b64Index base64UrlAlphabet (b64Char base64UrlAlphabet i) = some i := by
  decide

theorem hexIndex_hexDigitChar : ∀ i, i < 16 → hexIndex (hexDigitChar i) = some i := by decide

theorem hexDecode_hexEncode :
    ∀ bs : List Nat, (∀ b ∈ bs, b < 256) → hexDecode (hexEncode bs) = some bs := by
  intro bs
  induction bs with
  | nil =>
    intro _
    simp [hexEncode, hexDecode]
  | cons b rest ih =>
    intro hval
    have hb : b < 256 := hval b (by simp)
    have h1 := hexIndex_hexDigitChar (b / 16) (by omega)
    have h2 := hexIndex_hexDigitChar (b % 16) (by omega)
    have hrest := ih fun c hc => hval c (by simp [hc])
    simp only [hexEncode, hexDecode, h1, h2, hrest]
    simp
    omega

theorem textDecode_textEncode (enc : Encoding) (bs : List Nat) (hval : ∀ b ∈ bs, b < 256) :
    textDecode enc (textEncode enc bs) = some bs := by
  cases enc with
  | base64url =>
    exact b64_roundtrip_aux base64UrlAlphabet base64UrlAlphabet_len base64UrlAlphabet_pad
      b64Index_base64UrlAlphabet bs.length bs le_rfl hval
  | base64 =>
    exact b64_roundtrip_aux base64Alphabet base64Alphabet_len base64Alphabet_pad
      b64Index_base64Alphabet bs.length bs le_rfl hval
  | hex => exact hexDecode_hexEncode bs hval

/-! ## Validation lemmas -/

theorem vmOk_iff (vm : VerificationMethod) :
    (if vm.type = "Ed25519VerificationKey2020" then vm.publicKeyMultibase.isSome
      else if vm.type = "JsonWebKey2020" then vm.publicKeyJwk.isSome
      else if vm.type = "Ed25519VerificationKey2018" then vm.publicKeyBase58.isSome
      else false) = true ↔
    ((vm.type = "Ed25519VerificationKey2020" ∧ vm.publicKeyMultibase.isSome) ∨
      (vm.type = "JsonWebKey2020" ∧ vm.publicKeyJwk.isSome) ∨
      (vm.type = "Ed25519VerificationKey2018" ∧ vm.publicKeyBase58.isSome)) := by
  split_ifs <;> simp_all

theorem ivvm_iff (id0 : String) (vms : List VerificationMethod) (sv : Option (List Service)) :
    isValidVerificationMethod ⟨id0, some vms, sv⟩ = true ↔
      ∀ vm ∈ vms,
        ((vm.type = "Ed25519VerificationKey2020" ∧ vm.publicKeyMultibase.isSome) ∨
          (vm.type = "JsonWebKey2020" ∧ vm.publicKeyJwk.isSome) ∨
          (vm.type = "Ed25519VerificationKey2018" ∧ vm.publicKeyBase58.isSome)) := by
  rw [isValidVerificationMethod]
  rw [List.all_eq_true]
  constructor
  · intro h vm hvm
    exact (vmOk_iff vm).mp (by simpa using h vm hvm)
  · intro h vm hvm
    simpa using (vmOk_iff vm).mpr (h vm hvm)

theorem ivs_iff (id0 : String) (vm0 : Option (List VerificationMethod)) (svcs : List Service) :
    isValidService ⟨id0, vm0, some svcs⟩ = true ↔
      ∀ s ∈ svcs, truthyStr s.serviceEndpoint ∧ truthyStr s.id ∧ truthyStr s.type := by
  rw [isValidService, List.all_eq_true]
  simp [Bool.and_eq_true, and_assoc]

/-! ## Engine lemmas -/

theorem length_foldl_set (v : Bool) :
    ∀ (indices : List Int) (bs : List Bool),
      (indices.foldl (fun acc i => acc.set i.toNat v) bs).length = bs.length := by
  intro indices
  induction indices with
  | nil => intro bs; rfl
  | cons i rest ih =>
    intro bs
    simp only [List.foldl_cons, ih, List.length_set]

theorem mutateList_preserves_length (l l2 : StatusList) (indices : List Int)
    (action : StatusAction) (h : mutateList l indices action = .ok l2) :
    l2.bits.length = l.bits.length := by
  rw [mutateList] at h
  split_ifs at h
  simp only [Except.ok.injEq] at h
  subst h
  simp [length_foldl_set]

/-! ## Claim theorems -/

/-- **C1**: an UpdateRequest whose indices contain at least one index outside
`[0, length)` commits no bit change at all — `updateStatus` returns
`IndexOutOfRange` and the ledger (hence the status list) is bitwise
unchanged, because every index is validated before any bit is flipped. -/
theorem C1_updateStatus_outOfRange_atomic
    (ledger : Ledger) (did : String) (opts : UpdateStatusListOptions) (publish : Bool)
    (l : StatusList)
    (hfetch : fetchList ledger did opts.statusListName = some l)
    (hver : opts.statusListVersion = none)
    (hbad : ∃ i ∈ opts.indices, ¬ (0 ≤ i ∧ i < (l.bits.length : Int))) :
    runStatusUpdateCall ledger (Veramo.updateStatusList2021 did opts publish)
      = (.error .indexOutOfRange, ledger) := by
  obtain ⟨i, hi, hiBad⟩ := hbad
  have hallF : opts.indices.all (indexOk l.bits.length) = false := by
    rw [← Bool.not_eq_true, List.all_eq_true]
    intro hall
    have h := hall i hi
    rw [indexOk] at h
    simp at h
    exact hiBad ⟨h.1, h.2⟩
  cases hact : opts.statusAction <;>
    simp [runStatusUpdateCall, Veramo.updateStatusList2021, applyUpdate, applyUpdateFetched,
      mutateList, hact, hfetch, hver, hallF]

/-- Witness for C1: a 4-bit revocation list and a request carrying the
out-of-range index 5 next to the valid index 0. -/
theorem C1_witness :
    runStatusUpdateCall [(("did:cheqd:testnet:issuer-1", "status-list-1"),
        createList 4 .revocation .base64url false)]
      (Veramo.updateStatusList2021 "did:cheqd:testnet:issuer-1"
        ⟨.revoke, [0, 5], "status-list-1", none⟩ true)
      = (.error .indexOutOfRange,
          [(("did:cheqd:testnet:issuer-1", "status-list-1"),
            createList 4 .revocation .base64url false)]) :=
  C1_updateStatus_outOfRange_atomic _ _ _ _ (createList 4 .revocation .base64url false)
    (by decide) rfl ⟨5, by decide, by decide⟩

/-- **C3**: a `reinstate` action against a revocation-purpose list fails with
`InvalidAction` and leaves the ledger — hence every bit of the list —
unchanged. -/
theorem C3_reinstate_on_revocation_invalidAction
    (ledger : Ledger) (did : String) (opts : UpdateStatusListOptions) (publish : Bool)
    (l : StatusList)
    (hfetch : fetchList ledger did opts.statusListName = some l)
    (hver : opts.statusListVersion = none)
    (hact : opts.statusAction = .reinstate)
    (hpurpose : l.purpose = .revocation)
    (hidx : opts.indices.all (indexOk l.bits.length) = true) :
    runStatusUpdateCall ledger (Veramo.updateStatusList2021 did opts publish)
      = (.error .invalidAction, ledger) := by
  simp [runStatusUpdateCall, Veramo.updateStatusList2021, applyUpdate, applyUpdateFetched,
    mutateList, hact, hfetch, hver, hidx, hpurpose]

/-- Witness for C3: reinstating index 1 of a 4-bit revocation list. -/
theorem C3_witness :
    runStatusUpdateCall [(("did:cheqd:testnet:issuer-1", "status-list-1"),
        createList 4 .revocation .base64url false)]
      (Veramo.updateStatusList2021 "did:cheqd:testnet:issuer-1"
        ⟨.reinstate, [1], "status-list-1", none⟩ true)
      = (.error .invalidAction,
          [(("did:cheqd:testnet:issuer-1", "status-list-1"),
            createList 4 .revocation .base64url false)]) :=
  C3_reinstate_on_revocation_invalidAction _ _ _ _
    (createList 4 .revocation .base64url false) (by decide) rfl rfl rfl (by decide)

/-- **C4**: for every bit sequence and every supported wire encoding
(base64url, base64, hex), decoding the encoded form at the original bit
length recovers the bits exactly — `decode(encode(b, enc), enc, length b) =
b` — for any deterministic lossless compressor collaborator. -/
theorem C4_decode_encode_roundtrip
    (comp : List Nat → List Nat) (decomp : List Nat → Option (List Nat))
    (enc : Encoding) (bits : List Bool)
    (hlossless : ∀ x, (∀ b ∈ x, b < 256) → decomp (comp x) = some x)
    (hrange : ∀ x, (∀ b ∈ x, b < 256) → ∀ b ∈ comp x, b < 256) :
    decodeBits decomp enc (encodeBits comp enc bits) bits.length = .ok bits := by
  have hpk := packBits_lt bits
  have hcomp := hrange _ hpk
  simp only [encodeBits, decodeBits, textDecode_textEncode enc _ hcomp, hlossless _ hpk,
    length_packBits bits, if_pos, unpackBits_packBits]

/-- Witness for C4: the identity compressor, base64url, bits 101. -/
theorem C4_witness :
    decodeBits some .base64url (encodeBits id .base64url [true, false, true]) 3
      = .ok [true, false, true] :=
  C4_decode_encode_roundtrip id some .base64url [true, false, true]
    (fun _ _ => rfl) (fun _ hx => hx)

/-- **C5**: a freshly created status list of any length has all bits zero,
and `checkStatus` reports `value = false` (with the list's purpose) at every
index inside `[0, length)`. -/
theorem C5_create_allZero_checkStatus
    (length : Nat) (purpose : StatusPurpose) (enc : Encoding) (encr : Bool)
    (did name : String) (i : Nat) (hi : i < length) :
    (createList length purpose enc encr).bits = List.replicate length false ∧
    checkStatus [((did, name), createList length purpose enc encr)] did name i
      = .ok ⟨purpose, false⟩ := by
  constructor
  · rfl
  · simp [checkStatus, fetchList, createList, hi, List.getD_eq_getElem?_getD,
      List.getElem?_getD_replicate_default_eq]

/-- Witness for C5: a fresh 4-bit suspension list checked at index 2. -/
theorem C5_witness :
    (createList 4 .suspension .base64url false).bits = List.replicate 4 false ∧
    checkStatus [(("did:cheqd:testnet:issuer-1", "status-list-1"),
        createList 4 .suspension .base64url false)]
      "did:cheqd:testnet:issuer-1" "status-list-1" 2 = .ok ⟨.suspension, false⟩ :=
  C5_create_allZero_checkStatus 4 .suspension .base64url false
    "did:cheqd:testnet:issuer-1" "status-list-1" 2 (by decide)

/-- **C6**: when the on-ledger version advances between the fetch phase and
the publish phase, `applyUpdate` fails with `PublishConflict` and the ledger
is returned untouched — the locally mutated bits are discarded, never merged
or retried. -/
theorem C6_publishConflict_discards
    (ledgerAtFetch ledgerAtPublish : Ledger) (req : UpdateRequest)
    (cur latest newList : StatusList)
    (hfetch : fetchList ledgerAtFetch req.issuerDid req.statusListName = some cur)
    (hver : req.statusListVersion = none)
    (hmut : mutateList cur req.indices req.statusAction = .ok newList)
    (hlatest : fetchList ledgerAtPublish req.issuerDid req.statusListName = some latest)
    (hadv : cur.version < latest.version) :
    applyUpdate ledgerAtFetch ledgerAtPublish req true
      = (.error .publishConflict, ledgerAtPublish) := by
  simp [applyUpdate, applyUpdateFetched, hfetch, hver, hmut, hlatest]
  omega

/-- Witness for C6: a revoke of index 1 fetched at version 0 while the ledger
already holds version 1 at publish time. -/
theorem C6_witness :
    applyUpdate
      [(("did:cheqd:testnet:issuer-1", "status-list-1"),
        createList 4 .revocation .base64url false)]
      [(("did:cheqd:testnet:issuer-1", "status-list-1"),
        ⟨.revocation, List.replicate 4 false, .base64url, false, 1⟩)]
      ⟨"did:cheqd:testnet:issuer-1", "status-list-1", [1], none, .revoke⟩ true
      = (.error .publishConflict,
          [(("did:cheqd:testnet:issuer-1", "status-list-1"),
            ⟨.revocation, List.replicate 4 false, .base64url, false, 1⟩)]) :=
  C6_publishConflict_discards _ _ _
    (createList 4 .revocation .base64url false)
    ⟨.revocation, List.replicate 4 false, .base64url, false, 1⟩
    ⟨.revocation, (List.replicate 4 false).set 1 true, .base64url, false, 0⟩
    (by decide) rfl rfl (by decide) (by decide)

/-- **C2**: the claim fails on the code.  The bulk branch of
`Veramo.revokeCredentials` hard-codes `publish: true` (and omits
`returnUpdatedStatusList`), ignoring the caller's `publish = false`, while
the sibling suspend/unsuspend wrappers and `updateStatusList2021` pass the
flag through; in the engine a call that does carry `publish = false` leaves
the ledger untouched, so the bulk-revoke path genuinely diverges. -/
theorem C2_bulk_revoke_ignores_publish :
    (Veramo.revokeCredentials (.array ["credential-1"]) false).publish = true ∧
    (Veramo.revokeCredentials (.array ["credential-1"]) false).returnUpdatedStatusList
      = none ∧
    (Veramo.revokeCredentials (.single "credential-1") false).publish = false ∧
    (Veramo.suspendCredentials (.array ["credential-1"]) false).publish = false ∧
    (Veramo.unsuspendCredentials (.array ["credential-1"]) false).publish = false ∧
    (Veramo.updateStatusList2021 "did:cheqd:testnet:issuer-1"
      ⟨.revoke, [0], "status-list-1", none⟩ false).publish = false ∧
    (∀ (ledger : Ledger) (did name : String) (indices : List Int)
        (ver : Option Nat) (act : StatusAction) (ret : Option Bool),
      (runStatusUpdateCall ledger ⟨did, indices, name, ver, act, true, false, ret⟩).2
        = ledger) := by
  refine ⟨rfl, rfl, rfl, rfl, rfl, rfl, ?_⟩
  intro ledger did name indices ver act ret
  rw [runStatusUpdateCall, applyUpdate]
  cases hfetch : fetchList ledger did name with
  | none => rfl
  | some cur =>
    cases ver with
    | some v =>
      by_cases hv : v = cur.version
      · simp [hv, applyUpdateFetched]
        cases mutateList cur indices act <;> simp
      · simp [hv]
    | none =>
      simp [applyUpdateFetched]
      cases mutateList cur indices act <;> simp

/-- **C8**: a creation request that omits `length`, `encoding` and
`statusPurpose` yields a 140000-bit list encoded as base64url with purpose
revocation, and no engine mutation ever changes a list's bit length. -/
theorem C8_create_defaults_and_length_immutable
    (did : String) (resourceOptions : ResourcePayload)
    (statusOptions : CreateStatusListOptions) (args : CreateStatusListCallArgs)
    (hcall : Veramo.createStatusList2021 did resourceOptions statusOptions = .ok args)
    (hlen : statusOptions.length = none)
    (henc : statusOptions.encoding = none)
    (hpurp : statusOptions.statusPurpose = none) :
    (runCreateStatusListCall args).bits.length = 140000 ∧
    args.statusListEncoding = .base64url ∧
    args.statusPurpose = .revocation ∧
    (∀ (l l2 : StatusList) (indices : List Int) (action : StatusAction),
      mutateList l indices action = .ok l2 → l2.bits.length = l.bits.length) := by
  rw [Veramo.createStatusList2021] at hcall
  by_cases hname : truthyStr resourceOptions.name = false
  · rw [if_pos hname] at hcall
    exact absurd hcall (by simp)
  · rw [if_neg hname] at hcall
    simp only [Except.ok.injEq] at hcall
    subst hcall
    refine ⟨?_, by simp [henc], by simp [hpurp], ?_⟩
    · rw [runCreateStatusListCall, createList]
      rw [hlen, Option.getD_none, List.length_replicate]
      rfl
    · intro l l2 indices action h
      exact mutateList_preserves_length l l2 indices action h

/-- Witness for C8: creating "status-list-1" with every option omitted. -/
theorem C8_witness :
    (runCreateStatusListCall
      ⟨"did:cheqd:testnet:issuer-1", "status-list-1", .revocation, .base64url,
        none, false, none⟩).bits.length = 140000 ∧
    (⟨"did:cheqd:testnet:issuer-1", "status-list-1", .revocation, .base64url,
        none, false, none⟩ : CreateStatusListCallArgs).statusListEncoding = .base64url ∧
    (⟨"did:cheqd:testnet:issuer-1", "status-list-1", .revocation, .base64url,
        none, false, none⟩ : CreateStatusListCallArgs).statusPurpose = .revocation ∧
    (∀ (l l2 : StatusList) (indices : List Int) (action : StatusAction),
      mutateList l indices action = .ok l2 → l2.bits.length = l.bits.length) :=
  C8_create_defaults_and_length_immutable "did:cheqd:testnet:issuer-1"
    ⟨some "status-list-1", none⟩ ⟨none, none, none, none⟩
    ⟨"did:cheqd:testnet:issuer-1", "status-list-1", .revocation, .base64url,
      none, false, none⟩ rfl rfl rfl rfl

/-- **C9**: for every DID document whose id is non-empty,
`validateSpecCompliantPayload` accepts exactly when `verificationMethod` is a
non-empty array whose entries each carry the key field matching their (one of
three supported) type and, when a `service` array is present, every entry has
truthy `id`, `type` and `serviceEndpoint`; in particular no non-empty id is
rejected for lacking the `did:cheqd:` prefix. -/
theorem C9_validate_iff (d : DIDDocument) (hid : d.id ≠ "") :
    (validateSpecCompliantPayload d).valid = true ↔
      ((∃ vms, d.verificationMethod = some vms ∧ vms ≠ [] ∧
        ∀ vm ∈ vms,
          ((vm.type = "Ed25519VerificationKey2020" ∧ vm.publicKeyMultibase.isSome) ∨
            (vm.type = "JsonWebKey2020" ∧ vm.publicKeyJwk.isSome) ∨
            (vm.type = "Ed25519VerificationKey2018" ∧ vm.publicKeyBase58.isSome))) ∧
      (∀ svcs, d.service = some svcs → ∀ s ∈ svcs,
        truthyStr s.serviceEndpoint ∧ truthyStr s.id ∧ truthyStr s.type)) := by
  obtain ⟨did, vmo, svo⟩ := d
  simp only at hid
  rw [validateSpecCompliantPayload]
  rw [if_neg (fun h => hid h.1)]
  cases vmo with
  | none => simp
  | some vms =>
    simp only
    by_cases hemp : vms.isEmpty
    · rw [if_pos hemp]
      rw [List.isEmpty_iff] at hemp
      simp [hemp]
    · rw [if_neg hemp]
      rw [List.isEmpty_iff] at hemp
      by_cases hvm : isValidVerificationMethod ⟨did, some vms, svo⟩
      · rw [if_neg (by simp [hvm])]
        rw [ivvm_iff] at hvm
        cases svo with
        | none =>
          rw [if_neg (by simp [isValidService])]
          simp [hemp]
          exact hvm
        | some svcs =>
          by_cases hsv : isValidService ⟨did, some vms, some svcs⟩
          · rw [if_neg (by simp [hsv])]
            rw [ivs_iff] at hsv
            simp [hemp]
            exact ⟨hvm, hsv⟩
          · rw [if_pos (by simp [hsv])]
            rw [ivs_iff] at hsv
            simp [hemp, hvm]
            intro _
            push_neg at hsv
            obtain ⟨s, hs, hn⟩ := hsv
            exact ⟨s, hs, fun h1 h2 => by simpa using hn h1 h2⟩
      · rw [if_pos (by simp [hvm])]
        rw [ivvm_iff] at hvm
        simp [hemp]
        intro h
        exact absurd h hvm

/-- Witness for C9: a document with a non-cheqd id, one Ed25519 2020 entry
and no service array is accepted. -/
theorem C9_witness :
    (validateSpecCompliantPayload
      ⟨"did:key:z6MkTest", some [⟨"Ed25519VerificationKey2020", some "z6MkKey", none, none⟩],
        none⟩).valid = true ↔
      ((∃ vms, (some [⟨"Ed25519VerificationKey2020", some "z6MkKey", none, none⟩]
          : Option (List VerificationMethod)) = some vms ∧ vms ≠ [] ∧
        ∀ vm ∈ vms,
          ((vm.type = "Ed25519VerificationKey2020" ∧ vm.publicKeyMultibase.isSome) ∨
            (vm.type = "JsonWebKey2020" ∧ vm.publicKeyJwk.isSome) ∨
            (vm.type = "Ed25519VerificationKey2018" ∧ vm.publicKeyBase58.isSome))) ∧
      (∀ svcs, (none : Option (List Service)) = some svcs → ∀ s ∈ svcs,
        truthyStr s.serviceEndpoint ∧ truthyStr s.id ∧ truthyStr s.type)) :=
  C9_validate_iff
    ⟨"did:key:z6MkTest", some [⟨"Ed25519VerificationKey2020", some "z6MkKey", none, none⟩],
      none⟩ (by decide)

/-- **C10**: `verifyHookSignature` returns true exactly when the expected
signature equals the lowercase hexadecimal rendering of the collaborator's
HMAC-SHA256 digest of the raw body under the signing key, and it is
deterministic: equal inputs give equal results. -/
theorem C10_verifyHookSignature_iff
    (hmacSha256 : String → String → List Nat)
    (signingKey rawBody expectedSignature : String)
    (signingKey2 rawBody2 expectedSignature2 : String)
    (hk : signingKey = signingKey2) (hb : rawBody = rawBody2)
    (he : expectedSignature = expectedSignature2) :
    (verifyHookSignature hmacSha256 signingKey rawBody expectedSignature = true ↔
      expectedSignature = bytesToHexLower (hmacSha256 signingKey rawBody)) ∧
    verifyHookSignature hmacSha256 signingKey rawBody expectedSignature
      = verifyHookSignature hmacSha256 signingKey2 rawBody2 expectedSignature2 := by
  subst hk hb he
  refine ⟨?_, rfl⟩
  rw [verifyHookSignature, beq_iff_eq]
  exact eq_comm

/-- Witness for C10 at a one-byte digest 0xab and expected signature "ab". -/
theorem C10_witness :
    (verifyHookSignature (fun _ _ => [171]) "signing-key" "raw-body" "ab" = true ↔
      "ab" = bytesToHexLower ((fun _ _ => [(171 : Nat)]) "signing-key" "raw-body")) ∧
    verifyHookSignature (fun _ _ => [171]) "signing-key" "raw-body" "ab"
      = verifyHookSignature (fun _ _ => [171]) "signing-key" "raw-body" "ab" :=
  C10_verifyHookSignature_iff (fun _ _ => [171]) "signing-key" "raw-body" "ab"
    "signing-key" "raw-body" "ab" rfl rfl rfl

end CredentialService
